import Mathlib

/-!
Verification of the Asset-tracker authentication subsystem.

The development shallowly embeds the user-management operations of the
repository: the login/logout views (`src/authentication/views.py`), the
user create/update forms (`src/authentication/forms.py`), the user
deactivate/reactivate views, the user-list queryset, and the superuser
bootstrap script (`src/create_superuser.py`).  The credential store is a
list of user records; framework-delegated behaviour (password hashing,
the authentication backend, session storage) is modelled from the design
specification, as noted on each such definition.
-/

namespace AssetTracker

/-- A user record, mirroring the fields of the framework user model that the
repository reads or writes: primary key, username, password hash, email,
first/last name, active flag, superuser flag, creation timestamp
(`date_joined`, as an abstract tick count), and the list of assigned role
(group) names. -/
structure User where
  id : Nat
  username : String
  password : String
  email : String
  firstName : String
  lastName : String
  isActive : Bool
  isSuperuser : Bool
  dateJoined : Nat
  groups : List String
deriving DecidableEq, Repr

/-- The credential store: the persisted sequence of user rows. -/
abbrev Store := List User

/-- Modelled from the spec: the framework password hasher.  The spec requires
only that the stored field is a deterministic one-way encoding of the raw
password; the hash is abstracted as an injective tagging of the raw secret. -/
def makePassword (raw : String) : String := "pbkdf2_sha256$" ++ raw

/-- Modelled from the spec: the framework password check, comparing a raw
password against a stored hash. -/
def checkPassword (raw hash : String) : Bool := hash == makePassword raw

/-- Row lookup by username (`User.objects.filter(username=...)` / the
authentication backend lookup): first row whose username matches. -/
def findByUsername (s : Store) (name : String) : Option User :=
  s.find? (fun u => u.username == name)

/-- Row lookup by primary key (`get_object_or_404(User, pk=pk)`). -/
def findById (s : Store) (pk : Nat) : Option User :=
  s.find? (fun u => u.id == pk)

/-- Modelled from the spec: the framework authenticator
(`authenticate(request, username=..., password=...)`, spec section 4.2).
Looks the user up by username; absent users, password mismatches, and
inactive users all yield no principal. -/
def authenticate (s : Store) (username password : String) : Option User :=
  match findByUsername s username with
  | none => none
  | some u => if checkPassword password u.password && u.isActive then some u else none

/-- The externally observable outcome of a login POST: the authenticated user
id stored in the session (none on failure), the flash message, and the
redirect target (none when the login page is re-rendered). -/
structure LoginOutcome where
  sessionUser : Option Nat
  message : String
  redirectTo : Option String
deriving DecidableEq, Repr

/-- `LoginView.post`: authenticate the submitted credentials; on success log
the user in, flash a welcome message and redirect to the dashboard; on any
failure (unknown username, wrong password, inactive account) flash the same
error message and re-render the login page with no session established. -/
def loginPost (s : Store) (username password : String) : LoginOutcome :=
  match authenticate s username password with
  | some u =>
    { sessionUser := some u.id
      message := "Welcome back, " ++ username ++ "!"
      redirectTo := some "dashboard" }
  | none =>
    { sessionUser := none
      message := "Invalid username or password."
      redirectTo := none }

/-- The externally observable outcome of a logout request: the session user
after the request, the flash message, and the redirect target. -/
structure LogoutOutcome where
  sessionUser : Option Nat
  message : String
  redirectTo : String
deriving DecidableEq, Repr

/-- `LogoutView.post`: terminate the session (the framework logout flushes
any authentication data, also when no principal is bound — modelled from the
spec, section 4.3 revoke), flash a message and redirect to the login page. -/
def logoutPost (_session : Option Nat) : LogoutOutcome :=
  { sessionUser := none
    message := "You have been logged out successfully."
    redirectTo := "login" }

/-- `LogoutView.get`: same behaviour as the POST handler. -/
def logoutGet (session : Option Nat) : LogoutOutcome := logoutPost session

/-- The form fields that validation errors can be attached to. -/
inductive Field
  | username
  | email
  | password
  | role
deriving DecidableEq, Repr

/-- A validation error naming the offending field. -/
structure FieldError where
  field : Field
  message : String
deriving DecidableEq, Repr

/-- Whether the email contains the commercial-at character required by
`UserCreateForm.clean_email` / `UserUpdateForm.clean_email`
(the membership test runs over the characters of the email). -/
def emailHasAt (email : String) : Bool := email.data.any (fun c => c == '@')

/-- Email validation: the required-field check of the email form field
(modelled from the spec: email is a required, validated field), followed by
the `clean_email` check from the source, which rejects a nonempty email
without a commercial at. -/
def emailFieldErrors (email : String) : List FieldError :=
  (if email == "" then [⟨Field.email, "This field is required."⟩] else []) ++
  (if email != "" && !emailHasAt email then
    [⟨Field.email, "Enter a valid email address."⟩] else [])

/-- Modelled from the spec: the username-uniqueness check the framework form
runs at write time, failing when a conflicting username already exists
(spec: DuplicateUsername). -/
def usernameErrors (s : Store) (username : String) : List FieldError :=
  if (findByUsername s username).isSome then
    [⟨Field.username, "A user with that username already exists."⟩] else []

/-- Modelled from the spec: the password checks of the creation form — the
two entered passwords must match, and the minimum strength policy requires
length at least 8. -/
def passwordErrors (password1 password2 : String) : List FieldError :=
  (if password1 != password2 then
    [⟨Field.password, "The two password fields did not match."⟩] else []) ++
  (if password1.length < 8 then
    [⟨Field.password, "This password is too short."⟩] else [])

/-- All validation errors of `UserCreateForm` for one submission. -/
def createErrors (s : Store) (username email password1 password2 : String) :
    List FieldError :=
  usernameErrors s username ++ emailFieldErrors email ++
    passwordErrors password1 password2

/-- The row persisted by `UserCreateForm.save`: fresh primary key, hashed
password, active by default, creation timestamp set now, and the selected
role (when provided) as the only group. -/
def newUser (nextId now : Nat) (username email password : String)
    (role : Option String) : User :=
  { id := nextId
    username := username
    password := makePassword password
    email := email
    firstName := ""
    lastName := ""
    isActive := true
    isSuperuser := false
    dateJoined := now
    groups := role.toList }

/-- `UserCreateView` submitting a `UserCreateForm`: validate the submission;
when any check fails return the errors and persist nothing, otherwise append
the new row and assign the role if one was provided. -/
def createUser (s : Store) (nextId now : Nat)
    (username email password1 password2 : String) (role : Option String) :
    Except (List FieldError) Store :=
  match createErrors s username email password1 password2 with
  | [] => .ok (s ++ [newUser nextId now username email password1 role])
  | errs => .error errs

/-- The store after a create attempt: the new store on success, the old store
untouched when validation failed (all-or-nothing). -/
def storeAfterCreate (s : Store) (nextId now : Nat)
    (username email password1 password2 : String) (role : Option String) :
    Store :=
  match createUser s nextId now username email password1 password2 role with
  | .ok s2 => s2
  | .error _ => s

/-- The data submitted to `UserUpdateForm`: exactly its `Meta.fields`
(username, email, first and last name, active flag) plus the role choice. -/
structure UpdateInput where
  username : String
  email : String
  firstName : String
  lastName : String
  isActive : Bool
  role : Option String
deriving DecidableEq, Repr

/-- `UserUpdateForm.save` applied to one row: the model form copies the
`Meta.fields` onto the instance and saves it, then clears all group links and
adds the selected role when one was provided.  Primary key, password hash and
creation timestamp are not among the form fields and are left as they are. -/
def applyUpdate (u : User) (inp : UpdateInput) : User :=
  { u with
    username := inp.username
    email := inp.email
    firstName := inp.firstName
    lastName := inp.lastName
    isActive := inp.isActive
    groups := inp.role.toList }

/-- Persist a per-row edit: rewrite the rows whose primary key matches. -/
def setUser (s : Store) (pk : Nat) (f : User → User) : Store :=
  s.map (fun u => if u.id == pk then f u else u)

/-- Failures of the administrative views: missing row (404) or a form
validation failure. -/
inductive AdminError
  | notFound
  | invalid (errs : List FieldError)
deriving DecidableEq, Repr

/-- Validation errors of `UserUpdateForm`: the email checks from the source,
and (modelled from the spec) the uniqueness check on the username field
ignoring the edited row itself. -/
def updateErrors (s : Store) (pk : Nat) (inp : UpdateInput) : List FieldError :=
  (if s.any (fun v => v.username == inp.username && v.id != pk) then
    [⟨Field.username, "A user with that username already exists."⟩] else []) ++
  emailFieldErrors inp.email

/-- `UserUpdateView` submitting a `UserUpdateForm` for row `pk`: 404 when the
row is absent, validation errors persist nothing, otherwise the form is
saved onto the row. -/
def updateUser (s : Store) (pk : Nat) (inp : UpdateInput) :
    Except AdminError Store :=
  match findById s pk with
  | none => .error .notFound
  | some _ =>
    match updateErrors s pk inp with
    | [] => .ok (setUser s pk (fun u => applyUpdate u inp))
    | errs => .error (.invalid errs)

/-- `user_deactivate`: 404 when the row is absent, otherwise clear the
active flag and save. -/
def userDeactivate (s : Store) (pk : Nat) : Except AdminError Store :=
  match findById s pk with
  | none => .error .notFound
  | some _ => .ok (setUser s pk (fun u => { u with isActive := false }))

/-- `user_reactivate`: 404 when the row is absent, otherwise set the
active flag and save. -/
def userReactivate (s : Store) (pk : Nat) : Except AdminError Store :=
  match findById s pk with
  | none => .error .notFound
  | some _ => .ok (setUser s pk (fun u => { u with isActive := true }))

/-- The ordering used by `UserListView.get_queryset`:
`order_by('username')`. -/
def usernameLe (a b : User) : Bool := a.username ≤ b.username

/-- `UserListView.get_queryset`: every user row, with groups and active
status included in each record, ordered by username ascending. -/
def listUsers (s : Store) : List User := s.mergeSort usernameLe

/-- The guard of `create_superuser.py`:
`User.objects.filter(username='admin').exists()`. -/
def adminExists (s : Store) : Bool := s.any (fun u => u.username == "admin")

/-- The superuser row created by the bootstrap script. -/
def bootstrapAdmin (nextId now : Nat) : User :=
  { id := nextId
    username := "admin"
    password := makePassword "admin123"
    email := "admin@assettracker.com"
    firstName := ""
    lastName := ""
    isActive := true
    isSuperuser := true
    dateJoined := now
    groups := [] }

/-- `create_superuser.py`: create the superuser only when no user named
admin exists; otherwise print a notice and write nothing. -/
def createSuperuserScript (s : Store) (nextId now : Nat) : Store :=
  if adminExists s then s else s ++ [bootstrapAdmin nextId now]

/-- Usernames are pairwise distinct in the store. -/
def uniqueUsernames (s : Store) : Prop :=
  s.Pairwise (fun a b => a.username ≠ b.username)

/-- Primary keys are pairwise distinct in the store. -/
def uniqueIds (s : Store) : Prop :=
  s.Pairwise (fun a b => a.id ≠ b.id)

/-- Sample user for concrete witnesses. -/
def demoUser : User :=
  { id := 1
    username := "alice"
    password := makePassword "password1"
    email := "a@x.com"
    firstName := ""
    lastName := ""
    isActive := true
    isSuperuser := false
    dateJoined := 0
    groups := [] }

/-- Sample update submission for concrete witnesses. -/
def demoInput : UpdateInput :=
  { username := "alice"
    email := "new@x.com"
    firstName := "Al"
    lastName := "Liddell"
    isActive := true
    role := some "staff" }

theorem setUser_cons (a : User) (t : Store) (pk : Nat) (f : User → User) :
    setUser (a :: t) pk f = (if a.id == pk then f a else a) :: setUser t pk f :=
  rfl

theorem findById_setUser (pk : Nat) (f : User → User)
    (hf : ∀ u, (f u).id = u.id) (s : Store) :
    findById (setUser s pk f) pk = (findById s pk).map f := by
  induction s with
  | nil => rfl
  | cons a t ih =>
    show List.find? (fun u => u.id == pk)
        ((if a.id == pk then f a else a) :: setUser t pk f) =
      Option.map f (List.find? (fun u => u.id == pk) (a :: t))
    by_cases h : (a.id == pk) = true
    · have h2 : (fun u : User => u.id == pk) (f a) = true := by
        show ((f a).id == pk) = true
        rw [hf a]; exact h
      have h3 : (fun u : User => u.id == pk) a = true := h
      rw [if_pos h]
      rw [List.find?_cons_of_pos (setUser t pk f) h2,
        List.find?_cons_of_pos t h3]
      rfl
    · have h4 : ¬ (fun u : User => u.id == pk) a = true := h
      rw [if_neg h]
      rw [List.find?_cons_of_neg (setUser t pk f) h4,
        List.find?_cons_of_neg t h4]
      exact ih

theorem updateUser_ok {s : Store} {pk : Nat} {inp : UpdateInput} {s2 : Store}
    (h : updateUser s pk inp = .ok s2) :
    s2 = setUser s pk (fun u => applyUpdate u inp) := by
  unfold updateUser at h
  cases hf : findById s pk with
  | none => rw [hf] at h; exact Except.noConfusion h
  | some u =>
    rw [hf] at h
    cases he : updateErrors s pk inp with
    | nil =>
      rw [he] at h
      injection h with h2
      exact h2.symm
    | cons e es => rw [he] at h; exact Except.noConfusion h

/-- C1: for every existing user, an update call that modifies only email,
first name, last name, role, or active flag (the submitted username equals
the stored one) leaves the username, password hash, id, and creation
timestamp of the user unchanged after it completes. -/
theorem update_preserves_identity_fields
    (s : Store) (pk : Nat) (inp : UpdateInput) (u : User) (s2 : Store)
    (hfind : findById s pk = some u)
    (hsame : inp.username = u.username)
    (hok : updateUser s pk inp = .ok s2) :
    ∃ v, findById s2 pk = some v ∧ v.username = u.username ∧
      v.password = u.password ∧ v.id = u.id ∧ v.dateJoined = u.dateJoined := by
  have hs2 := updateUser_ok hok
  subst hs2
  refine ⟨applyUpdate u inp, ?_, hsame, rfl, rfl, rfl⟩
  rw [findById_setUser pk (fun x => applyUpdate x inp) (fun _ => rfl) s, hfind]
  rfl

theorem update_preserves_identity_fields_witness :
    findById [demoUser] 1 = some demoUser ∧
    demoInput.username = demoUser.username ∧
    updateUser [demoUser] 1 demoInput =
      .ok (setUser [demoUser] 1 (fun u => applyUpdate u demoInput)) ∧
    ∃ v, findById (setUser [demoUser] 1 (fun u => applyUpdate u demoInput)) 1 =
        some v ∧
      v.username = demoUser.username ∧ v.password = demoUser.password ∧
      v.id = demoUser.id ∧ v.dateJoined = demoUser.dateJoined :=
  ⟨rfl, rfl, by rfl,
    update_preserves_identity_fields [demoUser] 1 demoInput demoUser _ rfl rfl
      (by rfl)⟩

/-- Sample user for the role-replacement witness. -/
def demoUserRole : User :=
  { id := 2
    username := "carol"
    password := makePassword "password2"
    email := "c@x.com"
    firstName := ""
    lastName := ""
    isActive := true
    isSuperuser := false
    dateJoined := 3
    groups := ["manager", "auditor"] }

/-- Sample update submission for the role-replacement witness. -/
def demoInputRole : UpdateInput :=
  { username := "carol"
    email := "c@x.com"
    firstName := ""
    lastName := ""
    isActive := true
    role := some "staff" }

/-- C5: a successful update is a full role replace: the updated user holds
exactly the provided role, or zero roles when none was provided — never more
than one role. -/
theorem update_role_full_replace
    (s : Store) (pk : Nat) (inp : UpdateInput) (s2 : Store) (v : User)
    (hok : updateUser s pk inp = .ok s2)
    (hv : findById s2 pk = some v) :
    v.groups = inp.role.toList ∧ v.groups.length ≤ 1 := by
  have hs2 := updateUser_ok hok
  subst hs2
  rw [findById_setUser pk (fun x => applyUpdate x inp) (fun _ => rfl) s] at hv
  cases hfind : findById s pk with
  | none => rw [hfind] at hv; exact Option.noConfusion hv
  | some u =>
    rw [hfind] at hv
    injection hv with hv2
    subst hv2
    refine ⟨rfl, ?_⟩
    show inp.role.toList.length ≤ 1
    cases inp.role <;> simp

theorem update_role_full_replace_witness :
    updateUser [demoUserRole] 2 demoInputRole =
      .ok (setUser [demoUserRole] 2 (fun u => applyUpdate u demoInputRole)) ∧
    findById (setUser [demoUserRole] 2 (fun u => applyUpdate u demoInputRole)) 2 =
      some (applyUpdate demoUserRole demoInputRole) ∧
    (applyUpdate demoUserRole demoInputRole).groups = demoInputRole.role.toList ∧
    (applyUpdate demoUserRole demoInputRole).groups.length ≤ 1 :=
  ⟨by rfl, rfl,
    update_role_full_replace [demoUserRole] 2 demoInputRole
      (setUser [demoUserRole] 2 (fun u => applyUpdate u demoInputRole))
      (applyUpdate demoUserRole demoInputRole) (by rfl) (by rfl)⟩

/-- C9: logout is total and idempotent at the public interface: for every
caller session (authenticated or not) and either verb, it clears the
authentication data, redirects to the login page, and yields the same
outcome as logging out of a session holding no principal. -/
theorem logout_total_idempotent (session : Option Nat) :
    (logoutPost session).sessionUser = none ∧
    (logoutPost session).redirectTo = "login" ∧
    logoutGet session = logoutPost session ∧
    logoutPost ((logoutPost session).sessionUser) = logoutPost session ∧
    logoutPost session = logoutPost none :=
  ⟨rfl, rfl, rfl, rfl, rfl⟩

/-- C10: the superuser bootstrap is idempotent: when a user named admin
already exists the script writes nothing, and running the script twice
leaves the same store as running it once. -/
theorem bootstrap_idempotent (s : Store) (n1 t1 n2 t2 : Nat) :
    (adminExists s = true → createSuperuserScript s n1 t1 = s) ∧
    createSuperuserScript (createSuperuserScript s n1 t1) n2 t2 =
      createSuperuserScript s n1 t1 := by
  constructor
  · intro h
    simp [createSuperuserScript, h]
  · by_cases h : adminExists s = true
    · simp [createSuperuserScript, h]
    · have h2 : adminExists (s ++ [bootstrapAdmin n1 t1]) = true := by
        simp [adminExists, bootstrapAdmin]
      simp [createSuperuserScript, h, h2]

theorem bootstrap_idempotent_witness :
    adminExists [bootstrapAdmin 1 0] = true ∧
    createSuperuserScript [bootstrapAdmin 1 0] 2 3 = [bootstrapAdmin 1 0] :=
  ⟨rfl, (bootstrap_idempotent [bootstrapAdmin 1 0] 2 3 2 3).1 rfl⟩

/-- Sample deactivated user for the inactive-login witness. -/
def demoInactive : User :=
  { id := 4
    username := "bob"
    password := makePassword "password4"
    email := "b@x.com"
    firstName := ""
    lastName := ""
    isActive := false
    isSuperuser := false
    dateJoined := 0
    groups := [] }

/-- C2: for every user whose active flag is false, a login attempt with that
username is rejected regardless of whether the supplied password matches the
stored hash: no principal is produced and no authenticated session is
established. -/
theorem inactive_login_rejected
    (s : Store) (username password : String) (u : User)
    (hfind : findByUsername s username = some u)
    (hinactive : u.isActive = false) :
    authenticate s username password = none ∧
    (loginPost s username password).sessionUser = none ∧
    (loginPost s username password).message =
      "Invalid username or password." := by
  have hauth : authenticate s username password = none := by
    unfold authenticate
    rw [hfind]
    simp [hinactive]
  refine ⟨hauth, ?_, ?_⟩ <;> unfold loginPost <;> rw [hauth]

theorem inactive_login_rejected_witness :
    findByUsername [demoInactive] "bob" = some demoInactive ∧
    demoInactive.isActive = false ∧
    authenticate [demoInactive] "bob" "password4" = none ∧
    (loginPost [demoInactive] "bob" "password4").sessionUser = none ∧
    (loginPost [demoInactive] "bob" "password4").message =
      "Invalid username or password." :=
  ⟨rfl, rfl,
    inactive_login_rejected [demoInactive] "bob" "password4" demoInactive rfl rfl⟩

/-- Sample active user for the failure-indistinguishability witness. -/
def demoLoginUser : User :=
  { id := 5
    username := "carol"
    password := makePassword "password5"
    email := "c5@x.com"
    firstName := ""
    lastName := ""
    isActive := true
    isSuperuser := false
    dateJoined := 0
    groups := [] }

/-- C3: failed logins are externally indistinguishable: a run with an unknown
username and a run with an existing username but a wrong password produce the
identical outcome — the same error message and no authenticated session — so
no output reveals whether the username exists. -/
theorem login_failure_indistinguishable
    (s : Store) (u1 p1 u2 p2 : String) (v : User)
    (h1 : findByUsername s u1 = none)
    (h2 : findByUsername s u2 = some v)
    (h3 : checkPassword p2 v.password = false) :
    loginPost s u1 p1 = loginPost s u2 p2 ∧
    (loginPost s u1 p1).sessionUser = none ∧
    (loginPost s u1 p1).message = "Invalid username or password." := by
  have a1 : authenticate s u1 p1 = none := by
    unfold authenticate
    rw [h1]
  have a2 : authenticate s u2 p2 = none := by
    unfold authenticate
    rw [h2]
    simp [h3]
  constructor
  · unfold loginPost
    rw [a1, a2]
  constructor
  · unfold loginPost
    rw [a1]
  · unfold loginPost
    rw [a1]

theorem login_failure_indistinguishable_witness :
    findByUsername [demoLoginUser] "zed" = none ∧
    findByUsername [demoLoginUser] "carol" = some demoLoginUser ∧
    checkPassword "wrongpass" demoLoginUser.password = false ∧
    loginPost [demoLoginUser] "zed" "password5" =
      loginPost [demoLoginUser] "carol" "wrongpass" ∧
    (loginPost [demoLoginUser] "zed" "password5").sessionUser = none ∧
    (loginPost [demoLoginUser] "zed" "password5").message =
      "Invalid username or password." :=
  ⟨rfl, rfl, rfl,
    login_failure_indistinguishable [demoLoginUser] "zed" "password5" "carol"
      "wrongpass" demoLoginUser rfl rfl rfl⟩

theorem emailFieldErrors_has_email_error (email : String)
    (h : emailHasAt email = false) :
    ∃ e ∈ emailFieldErrors email, e.field = Field.email := by
  unfold emailFieldErrors
  by_cases he : (email == "") = true
  · refine ⟨⟨Field.email, "This field is required."⟩, ?_, rfl⟩
    rw [if_pos he]
    exact List.mem_append.mpr (Or.inl (List.mem_singleton.mpr rfl))
  · have he2 : (email == "") = false := by
      cases hb : (email == "") with
      | true => exact absurd hb he
      | false => rfl
    refine ⟨⟨Field.email, "Enter a valid email address."⟩, ?_, rfl⟩
    rw [if_neg he]
    have h2 : (email != "" && !emailHasAt email) = true := by
      show (!(email == "") && !emailHasAt email) = true
      rw [he2, h]
      rfl
    rw [if_pos h2]
    exact List.mem_append.mpr (Or.inr (List.mem_singleton.mpr rfl))

/-- C4: creating a user whose email lacks a commercial at fails with a
validation error naming the email field, and no user record is persisted:
the store is as long as before the failed call. -/
theorem create_invalid_email_rejected
    (s : Store) (nextId now : Nat) (username email p1 p2 : String)
    (role : Option String)
    (hemail : emailHasAt email = false) :
    (∃ errs, createUser s nextId now username email p1 p2 role = .error errs ∧
      ∃ e ∈ errs, e.field = Field.email) ∧
    (storeAfterCreate s nextId now username email p1 p2 role).length =
      s.length := by
  obtain ⟨e, hmem, hfield⟩ := emailFieldErrors_has_email_error email hemail
  have hmem2 : e ∈ createErrors s username email p1 p2 := by
    unfold createErrors
    exact List.mem_append.mpr (Or.inl (List.mem_append.mpr (Or.inr hmem)))
  cases hc : createErrors s username email p1 p2 with
  | nil =>
    rw [hc] at hmem2
    exact absurd hmem2 (List.not_mem_nil e)
  | cons a as =>
    rw [hc] at hmem2
    have hcu : createUser s nextId now username email p1 p2 role =
        .error (a :: as) := by
      unfold createUser
      rw [hc]
    refine ⟨⟨a :: as, hcu, e, hmem2, hfield⟩, ?_⟩
    unfold storeAfterCreate
    rw [hcu]

theorem create_invalid_email_rejected_witness :
    emailHasAt "nodomain" = false ∧
    (∃ errs, createUser [] 1 0 "dave" "nodomain" "password1" "password1" none =
        .error errs ∧
      ∃ e ∈ errs, e.field = Field.email) ∧
    (storeAfterCreate [] 1 0 "dave" "nodomain" "password1" "password1"
      none).length = ([] : Store).length :=
  ⟨rfl,
    create_invalid_email_rejected [] 1 0 "dave" "nodomain" "password1"
      "password1" none rfl⟩

theorem createUser_ok {s : Store} {n t : Nat} {un em p1 p2 : String}
    {r : Option String} {s1 : Store}
    (h : createUser s n t un em p1 p2 r = .ok s1) :
    createErrors s un em p1 p2 = [] ∧ s1 = s ++ [newUser n t un em p1 r] := by
  unfold createUser at h
  cases hc : createErrors s un em p1 p2 with
  | nil =>
    rw [hc] at h
    injection h with h2
    exact ⟨rfl, h2.symm⟩
  | cons a as =>
    rw [hc] at h
    exact Except.noConfusion h

theorem uniqueUsernames_setUser (s : Store) (pk : Nat) (f : User → User)
    (hf : ∀ u, (f u).username = u.username)
    (h : uniqueUsernames s) : uniqueUsernames (setUser s pk f) := by
  show List.Pairwise _ (s.map _)
  rw [List.pairwise_map]
  refine List.Pairwise.imp ?_ h
  intro a b hab
  show (if a.id == pk then f a else a).username ≠
    (if b.id == pk then f b else b).username
  by_cases hA : (a.id == pk) = true
  · by_cases hB : (b.id == pk) = true
    · rw [if_pos hA, if_pos hB, hf a, hf b]
      exact hab
    · rw [if_pos hA, if_neg hB, hf a]
      exact hab
  · by_cases hB : (b.id == pk) = true
    · rw [if_neg hA, if_pos hB, hf b]
      exact hab
    · rw [if_neg hA, if_neg hB]
      exact hab

theorem updateUser_errors_nil {s : Store} {pk : Nat} {inp : UpdateInput}
    {s2 : Store} (hok : updateUser s pk inp = .ok s2) :
    updateErrors s pk inp = [] := by
  unfold updateUser at hok
  cases hf : findById s pk with
  | none =>
    rw [hf] at hok
    exact Except.noConfusion hok
  | some u =>
    rw [hf] at hok
    cases he : updateErrors s pk inp with
    | nil => rfl
    | cons e es =>
      rw [he] at hok
      exact Except.noConfusion hok

theorem uniqueUsernames_updateUser (s : Store) (pk : Nat) (inp : UpdateInput)
    (s2 : Store) (huniq : uniqueUsernames s) (hids : uniqueIds s)
    (hok : updateUser s pk inp = .ok s2) : uniqueUsernames s2 := by
  have herr := updateUser_errors_nil hok
  have hs2 := updateUser_ok hok
  subst hs2
  have hany : (s.any fun v => v.username == inp.username && v.id != pk) =
      false := by
    cases hb : (s.any fun v => v.username == inp.username && v.id != pk) with
    | false => rfl
    | true =>
      unfold updateErrors at herr
      rw [hb] at herr
      simp at herr
  have hno : ∀ v ∈ s, v.id ≠ pk → v.username ≠ inp.username := by
    intro v hv hvid heq
    have hp : (v.username == inp.username && v.id != pk) = true := by
      rw [heq, beq_self_eq_true]
      show (true && !(v.id == pk)) = true
      rw [Bool.true_and]
      cases hc : (v.id == pk) with
      | true => exact absurd (eq_of_beq hc) hvid
      | false => rfl
    exact List.any_eq_false.mp hany v hv hp
  show List.Pairwise _ (s.map _)
  rw [List.pairwise_map]
  refine List.Pairwise.imp_of_mem ?_ (List.Pairwise.and huniq hids)
  intro a b ha hb hab
  obtain ⟨hun, hid⟩ := hab
  show (if a.id == pk then applyUpdate a inp else a).username ≠
    (if b.id == pk then applyUpdate b inp else b).username
  by_cases hA : (a.id == pk) = true
  · by_cases hB : (b.id == pk) = true
    · exact absurd (by rw [eq_of_beq hA, eq_of_beq hB]) hid
    · rw [if_pos hA, if_neg hB]
      show inp.username ≠ b.username
      intro he
      exact hno b hb
        (fun hbe => hB (by rw [hbe]; exact beq_self_eq_true pk)) he.symm
  · by_cases hB : (b.id == pk) = true
    · rw [if_neg hA, if_pos hB]
      show a.username ≠ inp.username
      exact hno a ha
        (fun hae => hA (by rw [hae]; exact beq_self_eq_true pk))
    · rw [if_neg hA, if_neg hB]
      exact hun

theorem uniqueUsernames_bootstrap (s : Store) (n t : Nat)
    (h : uniqueUsernames s) :
    uniqueUsernames (createSuperuserScript s n t) := by
  unfold createSuperuserScript
  by_cases hA : adminExists s = true
  · rw [if_pos hA]
    exact h
  · rw [if_neg hA]
    show List.Pairwise _ _
    rw [List.pairwise_append]
    refine ⟨h, List.pairwise_singleton _ _, ?_⟩
    intro a ha b hb
    rw [List.mem_singleton] at hb
    subst hb
    show a.username ≠ "admin"
    intro heq
    apply hA
    show List.any s _ = true
    rw [List.any_eq_true]
    exact ⟨a, ha, by rw [heq]; exact beq_self_eq_true "admin"⟩

/-- C6: creating two users with the same username: the second call fails with
an error on the username field and writes nothing, after both calls the store
holds exactly one user with that username, and username uniqueness is an
invariant preserved by every operation — user creation, user update (whose
uniqueness check runs with the unique-id store invariant), deactivation,
reactivation, and the superuser bootstrap. -/
theorem username_uniqueness_invariant
    (s : Store) (n1 t1 : Nat) (un e1 p1 q1 : String) (r1 : Option String)
    (n2 t2 : Nat) (e2 p2 q2 : String) (r2 : Option String) (s1 : Store)
    (hok : createUser s n1 t1 un e1 p1 q1 r1 = .ok s1) :
    (∃ errs, createUser s1 n2 t2 un e2 p2 q2 r2 = .error errs ∧
      ∃ er ∈ errs, er.field = Field.username) ∧
    storeAfterCreate s1 n2 t2 un e2 p2 q2 r2 = s1 ∧
    (s1.filter (fun u => u.username == un)).length = 1 ∧
    (uniqueUsernames s → uniqueUsernames s1) ∧
    (∀ s3 pk inp s4, uniqueUsernames s3 → uniqueIds s3 →
      updateUser s3 pk inp = .ok s4 → uniqueUsernames s4) ∧
    (∀ s3 pk s4, uniqueUsernames s3 → userDeactivate s3 pk = .ok s4 →
      uniqueUsernames s4) ∧
    (∀ s3 pk s4, uniqueUsernames s3 → userReactivate s3 pk = .ok s4 →
      uniqueUsernames s4) ∧
    (∀ s3 n t, uniqueUsernames s3 →
      uniqueUsernames (createSuperuserScript s3 n t)) := by
  obtain ⟨herr, hs1⟩ := createUser_ok hok
  have hfind : findByUsername s un = none := by
    cases hf : findByUsername s un with
    | none => rfl
    | some v =>
      unfold createErrors at herr
      unfold usernameErrors at herr
      rw [hf] at herr
      simp at herr
  have hnone : ∀ x ∈ s, (x.username == un) = false := by
    intro x hx
    have h5 := List.find?_eq_none.mp hfind x hx
    cases hb : (x.username == un) with
    | true => exact absurd hb h5
    | false => rfl
  subst hs1
  have hp : (fun u : User => u.username == un) (newUser n1 t1 un e1 p1 r1) =
      true := beq_self_eq_true un
  have hfind2 : findByUsername (s ++ [newUser n1 t1 un e1 p1 r1]) un =
      some (newUser n1 t1 un e1 p1 r1) := by
    unfold findByUsername
    rw [List.find?_append]
    unfold findByUsername at hfind
    rw [hfind, Option.none_or]
    exact List.find?_cons_of_pos [] hp
  have hue : usernameErrors (s ++ [newUser n1 t1 un e1 p1 r1]) un =
      [⟨Field.username, "A user with that username already exists."⟩] := by
    unfold usernameErrors
    rw [hfind2]
    rfl
  have hce : createErrors (s ++ [newUser n1 t1 un e1 p1 r1]) un e2 p2 q2 =
      ⟨Field.username, "A user with that username already exists."⟩ ::
        (emailFieldErrors e2 ++ passwordErrors p2 q2) := by
    unfold createErrors
    rw [hue]
    rfl
  have herr2 : createUser (s ++ [newUser n1 t1 un e1 p1 r1]) n2 t2 un e2 p2 q2
      r2 = .error (⟨Field.username,
        "A user with that username already exists."⟩ ::
        (emailFieldErrors e2 ++ passwordErrors p2 q2)) := by
    unfold createUser
    rw [hce]
  refine ⟨⟨_, herr2,
    ⟨Field.username, "A user with that username already exists."⟩,
    List.mem_cons_self _ _, rfl⟩, ?_, ?_, ?_, ?_, ?_, ?_, ?_⟩
  · unfold storeAfterCreate
    rw [herr2]
  · rw [List.filter_append]
    have hfs : s.filter (fun u => u.username == un) = [] := by
      apply List.filter_eq_nil_iff.mpr
      intro x hx
      have h6 := hnone x hx
      intro h7
      rw [h6] at h7
      exact Bool.noConfusion h7
    have hflt : List.filter (fun u : User => u.username == un)
        [newUser n1 t1 un e1 p1 r1] = [newUser n1 t1 un e1 p1 r1] :=
      List.filter_cons_of_pos hp
    rw [hfs, hflt]
    rfl
  · intro huniq
    show List.Pairwise _ _
    rw [List.pairwise_append]
    refine ⟨huniq, List.pairwise_singleton _ _, ?_⟩
    intro a ha b hb
    rw [List.mem_singleton] at hb
    subst hb
    show a.username ≠ un
    intro heq
    have h8 := hnone a ha
    rw [heq, beq_self_eq_true un] at h8
    exact Bool.noConfusion h8
  · intro s3 pk inp s4 huniq hids hok2
    exact uniqueUsernames_updateUser s3 pk inp s4 huniq hids hok2
  · intro s3 pk s4 huniq hok2
    unfold userDeactivate at hok2
    cases hf : findById s3 pk with
    | none =>
      rw [hf] at hok2
      exact Except.noConfusion hok2
    | some u =>
      rw [hf] at hok2
      injection hok2 with h9
      subst h9
      exact uniqueUsernames_setUser s3 pk _ (fun _ => rfl) huniq
  · intro s3 pk s4 huniq hok2
    unfold userReactivate at hok2
    cases hf : findById s3 pk with
    | none =>
      rw [hf] at hok2
      exact Except.noConfusion hok2
    | some u =>
      rw [hf] at hok2
      injection hok2 with h9
      subst h9
      exact uniqueUsernames_setUser s3 pk _ (fun _ => rfl) huniq
  · intro s3 n t huniq
    exact uniqueUsernames_bootstrap s3 n t huniq

theorem username_uniqueness_invariant_witness :
    createUser [] 1 0 "erin" "e@x.com" "password1" "password1" none =
      .ok [newUser 1 0 "erin" "e@x.com" "password1" none] ∧
    (∃ errs, createUser [newUser 1 0 "erin" "e@x.com" "password1" none] 2 7
        "erin" "e2@x.com" "password2" "password2" none = .error errs ∧
      ∃ er ∈ errs, er.field = Field.username) ∧
    storeAfterCreate [newUser 1 0 "erin" "e@x.com" "password1" none] 2 7 "erin"
      "e2@x.com" "password2" "password2" none =
      [newUser 1 0 "erin" "e@x.com" "password1" none] ∧
    (([newUser 1 0 "erin" "e@x.com" "password1" none]).filter
      (fun u => u.username == "erin")).length = 1 ∧
    uniqueUsernames [newUser 1 0 "erin" "e@x.com" "password1" none] ∧
    uniqueUsernames (setUser [newUser 1 0 "erin" "e@x.com" "password1" none] 1
      (fun u => applyUpdate u ⟨"erin", "e@x.com", "", "", true, none⟩)) ∧
    uniqueUsernames (setUser [newUser 1 0 "erin" "e@x.com" "password1" none] 1
      (fun u => { u with isActive := false })) ∧
    uniqueUsernames (setUser [newUser 1 0 "erin" "e@x.com" "password1" none] 1
      (fun u => { u with isActive := true })) ∧
    uniqueUsernames (createSuperuserScript
      [newUser 1 0 "erin" "e@x.com" "password1" none] 2 9) := by
  have h := username_uniqueness_invariant [] 1 0 "erin" "e@x.com" "password1"
    "password1" none 2 7 "e2@x.com" "password2" "password2" none
    [newUser 1 0 "erin" "e@x.com" "password1" none] (by rfl)
  have hu : uniqueUsernames [newUser 1 0 "erin" "e@x.com" "password1" none] :=
    h.2.2.2.1 List.Pairwise.nil
  refine ⟨by rfl, h.1, h.2.1, h.2.2.1, hu, ?_, ?_, ?_, ?_⟩
  · exact h.2.2.2.2.1 [newUser 1 0 "erin" "e@x.com" "password1" none] 1
      ⟨"erin", "e@x.com", "", "", true, none⟩
      (setUser [newUser 1 0 "erin" "e@x.com" "password1" none] 1
        (fun u => applyUpdate u ⟨"erin", "e@x.com", "", "", true, none⟩))
      hu (List.pairwise_singleton _ _) (by rfl)
  · exact h.2.2.2.2.2.1 [newUser 1 0 "erin" "e@x.com" "password1" none] 1
      (setUser [newUser 1 0 "erin" "e@x.com" "password1" none] 1
        (fun u => { u with isActive := false })) hu (by rfl)
  · exact h.2.2.2.2.2.2.1 [newUser 1 0 "erin" "e@x.com" "password1" none] 1
      (setUser [newUser 1 0 "erin" "e@x.com" "password1" none] 1
        (fun u => { u with isActive := true })) hu (by rfl)
  · exact h.2.2.2.2.2.2.2 [newUser 1 0 "erin" "e@x.com" "password1" none] 2 9 hu

theorem eq_of_uniqueIds :
    ∀ {s : Store}, uniqueIds s →
      ∀ {x y : User}, x ∈ s → y ∈ s → x.id = y.id → x = y := by
  intro s
  induction s with
  | nil =>
    intro _ x y hx _ _
    exact absurd hx (List.not_mem_nil x)
  | cons a t ih =>
    intro h x y hx hy hid
    have h2 := List.pairwise_cons.mp h
    rcases List.mem_cons.mp hx with rfl | hx2
    · rcases List.mem_cons.mp hy with rfl | hy2
      · rfl
      · exact absurd hid (h2.1 y hy2)
    · rcases List.mem_cons.mp hy with rfl | hy2
      · exact absurd hid.symm (h2.1 x hx2)
      · exact ih h2.2 hx2 hy2 hid

theorem authenticate_some {s : Store} {un pw : String} {u : User}
    (h : authenticate s un pw = some u) :
    findByUsername s un = some u ∧ checkPassword pw u.password = true ∧
      u.isActive = true := by
  unfold authenticate at h
  cases hf : findByUsername s un with
  | none =>
    rw [hf] at h
    exact Option.noConfusion h
  | some v =>
    rw [hf] at h
    have h2 : (if (checkPassword pw v.password && v.isActive) = true then some v
        else none) = some u := h
    by_cases hc : (checkPassword pw v.password && v.isActive) = true
    · rw [if_pos hc] at h2
      injection h2 with h3
      subst h3
      rw [Bool.and_eq_true_iff] at hc
      exact ⟨rfl, hc.1, hc.2⟩
    · rw [if_neg hc] at h2
      exact Option.noConfusion h2

/-- C7: for every user who can authenticate, deactivating then reactivating
that user id succeeds, returns the store to exactly its previous state, and
restores the ability to authenticate with the unchanged credentials. -/
theorem deactivate_reactivate_roundtrip
    (s : Store) (un pw : String) (u : User)
    (hids : uniqueIds s)
    (hauth : authenticate s un pw = some u) :
    ∃ s1, userDeactivate s u.id = .ok s1 ∧
      ∃ s2, userReactivate s1 u.id = .ok s2 ∧ s2 = s ∧
        authenticate s2 un pw = some u := by
  obtain ⟨hfind, hpw, hact⟩ := authenticate_some hauth
  have humem : u ∈ s := List.mem_of_find?_eq_some hfind
  have hidu : findById s u.id = some u := by
    cases hf : findById s u.id with
    | none =>
      have h5 := List.find?_eq_none.mp hf u humem
      exact absurd (beq_self_eq_true u.id) h5
    | some w =>
      have hwmem : w ∈ s := List.mem_of_find?_eq_some hf
      have hwid := @List.find?_some User (fun x : User => x.id == u.id) w s hf
      rw [eq_of_uniqueIds hids hwmem humem (eq_of_beq hwid)]
  have hid1 : findById (setUser s u.id (fun x => { x with isActive := false }))
      u.id = some { u with isActive := false } := by
    rw [findById_setUser u.id (fun x => { x with isActive := false })
      (fun _ => rfl) s, hidu]
    rfl
  have hs2 : setUser (setUser s u.id (fun x => { x with isActive := false }))
      u.id (fun x => { x with isActive := true }) = s := by
    show (s.map _).map _ = s
    rw [List.map_map]
    have hpt : ∀ x ∈ s,
        ((fun y : User => if y.id == u.id then { y with isActive := true } else y) ∘
          (fun y : User => if y.id == u.id then { y with isActive := false } else y))
          x = x := by
      intro x hx
      by_cases hxid : (x.id == u.id) = true
      · have hxu : x = u :=
          eq_of_uniqueIds hids hx humem (eq_of_beq hxid)
        subst hxu
        show (fun y : User =>
            if y.id == x.id then { y with isActive := true } else y)
          (if x.id == x.id then { x with isActive := false } else x) = x
        rw [if_pos (beq_self_eq_true x.id)]
        show (if ({ x with isActive := false } : User).id == x.id then
            ({ { x with isActive := false } with isActive := true } : User)
          else { x with isActive := false }) = x
        rw [if_pos (beq_self_eq_true x.id)]
        show ({ x with isActive := true } : User) = x
        rw [← hact]
      · show (fun y : User =>
            if y.id == u.id then { y with isActive := true } else y)
          (if x.id == u.id then { x with isActive := false } else x) = x
        rw [if_neg hxid]
        show (if x.id == u.id then ({ x with isActive := true } : User) else x) = x
        rw [if_neg hxid]
    rw [List.map_congr_left hpt, List.map_id']
  refine ⟨setUser s u.id (fun x => { x with isActive := false }), ?_,
    setUser (setUser s u.id (fun x => { x with isActive := false })) u.id
      (fun x => { x with isActive := true }), ?_, hs2, ?_⟩
  · unfold userDeactivate
    rw [hidu]
  · unfold userReactivate
    rw [hid1]
  · rw [hs2]
    exact hauth

/-- Sample active user for the roundtrip witness. -/
def demoRoundtripUser : User :=
  { id := 6
    username := "frank"
    password := makePassword "password6"
    email := "f@x.com"
    firstName := ""
    lastName := ""
    isActive := true
    isSuperuser := false
    dateJoined := 0
    groups := [] }

theorem deactivate_reactivate_roundtrip_witness :
    uniqueIds [demoRoundtripUser] ∧
    authenticate [demoRoundtripUser] "frank" "password6" =
      some demoRoundtripUser ∧
    ∃ s1, userDeactivate [demoRoundtripUser] demoRoundtripUser.id = .ok s1 ∧
      ∃ s2, userReactivate s1 demoRoundtripUser.id = .ok s2 ∧
        s2 = [demoRoundtripUser] ∧
        authenticate s2 "frank" "password6" = some demoRoundtripUser :=
  ⟨List.pairwise_singleton _ _, by rfl,
    deactivate_reactivate_roundtrip [demoRoundtripUser] "frank" "password6"
      demoRoundtripUser (List.pairwise_singleton _ _) (by rfl)⟩

/-- C8: the user list returns every user of the store — each with its full
record, groups and active status included — ordered by username ascending,
with no pagination or filtering. -/
theorem list_users_complete_sorted (s : Store) :
    List.Perm (listUsers s) s ∧
    (listUsers s).Pairwise (fun a b => a.username ≤ b.username) := by
  constructor
  · exact List.mergeSort_perm s usernameLe
  · have htrans : ∀ a b c : User,
        usernameLe a b → usernameLe b c → usernameLe a c := by
      intro a b c hab hbc
      simp only [usernameLe, decide_eq_true_eq] at hab hbc ⊢
      exact le_trans hab hbc
    have htotal : ∀ a b : User, usernameLe a b || usernameLe b a := by
      intro a b
      simp only [usernameLe]
      rcases le_total a.username b.username with h | h
      · simp [h]
      · simp [h]
    have hs := List.sorted_mergeSort htrans htotal s
    exact hs.imp (by
      intro a b hab
      simpa [usernameLe] using hab)

end AssetTracker
